import Mathlib

/-!
Shallow embedding of the game-state core of `boa.py` (the "Boa" snake game):
grid geometry, directions, the creature (snake) model, target (apple)
placement, and the per-frame update `update_game`.

Modelling conventions:
* `Vector2` cells hold small integral values throughout the game logic, so a
  cell is a pair of integers.  Python's `%` with a positive modulus is
  `Int.emod`.
* Real-time quantities (`dt`, `step_cooldown`, the cosmetic hues) are
  rationals; every constant in the source (`0.125`, `10`, `360`, ...) is
  exactly representable.
* `random.randint`-driven sampling (`Game.random_cell`) is modelled by an
  explicit oracle: a list of the cells the random generator would produce,
  consumed in order.  The rejection loop in `Game.new_apple` becomes a
  `List.find?` over that oracle; an exhausted oracle models the (probability
  zero) case where the loop has not yet terminated, so functions that may
  run the loop return `Option Game`.
* The purely cosmetic particle system (`Particle`, `generate_particles`) is
  not modelled: it is written to and never read by the game logic.
-/

namespace Boa

/-- Grid width in cells (`COLS = 15` in boa.py). -/
def COLS : ℕ := 15

/-- Grid height in cells (`ROWS = 10` in boa.py). -/
def ROWS : ℕ := 10

/-- A grid cell: the integral `(x, y)` payload of a `Vector2`. -/
abbrev Cell : Type := ℤ × ℤ

/-- The four movement directions.  In the source this is an `IntEnum` with
values `LEFT = 0`, `DOWN = 1`, `RIGHT = 2`, `UP = 3` (from `auto(0)`,
`auto()`, `auto()`, `auto()`). -/
inductive Direction : Type where
  | LEFT
  | DOWN
  | RIGHT
  | UP
deriving DecidableEq, Repr

/-- The `IntEnum` value of each `Direction` member. -/
def Direction.toIdx : Direction → ℕ
  | .LEFT => 0
  | .DOWN => 1
  | .RIGHT => 2
  | .UP => 3

/-- The `Direction` member with a given `IntEnum` value (values are always
taken modulo 4 before this is applied). -/
def Direction.ofIdx : ℕ → Direction
  | 0 => .LEFT
  | 1 => .DOWN
  | 2 => .RIGHT
  | _ => .UP

/-- The `directions` dict of boa.py: unit vector of each direction. -/
def dirVec : Direction → Cell
  | .LEFT => (-1, 0)
  | .RIGHT => (1, 0)
  | .DOWN => (0, 1)
  | .UP => (0, -1)

/-- Python `a % b` for a positive rational modulus `b` (used for the hue
cycling): the representative of `a` in `[0, b)`. -/
def ratMod (a b : ℚ) : ℚ := a - b * ⌊a / b⌋

/-- The `Snake` object: `cells` is ordered tail first, head last
(`cells[-1]` is the head); `dir` is the current travel direction; `hue` and
`line_hue` are the cosmetic colour phases (initially `40` and `10`). -/
structure Snake where
  cells : List Cell
  dir : Direction
  hue : ℚ
  line_hue : ℚ
deriving DecidableEq, Repr

/-- `Snake.head` property: `self.cells[-1]`. -/
def Snake.head (s : Snake) : Cell := s.cells.getLastD (0, 0)

/-- `Snake.tail` property: `self.cells[0]`. -/
def Snake.tail (s : Snake) : Cell := s.cells.headD (0, 0)

/-- `Snake.is_body`: linear scan of the cells for an equal cell. -/
def Snake.is_body (s : Snake) (cell : Cell) : Bool :=
  s.cells.any (fun body_cell => body_cell = cell)

/-- `Snake.update_colors`: advance both hues by `dt * 10`, wrapping at
`360`. -/
def Snake.update_colors (s : Snake) (dt : ℚ) : Snake :=
  { s with
    hue := ratMod (s.hue + dt * 10) 360
    line_hue := ratMod (s.line_hue + dt * 10) 360 }

/-- The `Game` object (particles omitted: purely cosmetic, never read by
the logic). `next_dirs` is the FIFO queue of pending directions, front
first. -/
structure Game where
  next_dirs : List Direction
  snake : Snake
  game_over : Bool
  pause : Bool
  step_cooldown : ℚ
  score : ℕ
  apple : Option Cell
deriving DecidableEq, Repr

/-- `Game.STEP_INTERVAL = 0.125`. -/
def STEP_INTERVAL : ℚ := 125 / 1000

/-- `Game.cell_step`: coordinate-wise addition, then `x %= COLS`,
`y %= ROWS` with Python's mathematical (sign-of-divisor) modulo. -/
def cell_step (a b : Cell) : Cell :=
  ((a.1 + b.1) % (COLS : ℤ), (a.2 + b.2) % (ROWS : ℤ))

/-- `Game.opposite_dir`: `(direction + 2) % len(directions)` on the
`IntEnum` values. -/
def opposite_dir (direction : Direction) : Direction :=
  Direction.ofIdx ((direction.toIdx + 2) % 4)

/-- `Game.new_apple`, with the random generator replaced by the `samples`
oracle.  If the snake fills the grid the method returns early and `apple`
is left unchanged; otherwise the rejection loop keeps sampling until it
finds a cell that is not on the snake's body.  `none` models a loop that
has not terminated within the supplied oracle. -/
def new_apple (samples : List Cell) (g : Game) : Option Game :=
  if g.snake.cells.length = ROWS * COLS then some g
  else
    match samples.find? (fun c => !(g.snake.is_body c)) with
    | some c => some { g with apple := some c }
    | none => none

/-- `Game.reset_game`: empty pending-direction queue, fresh snake at
`[(0,0), (1,0), (2,0)]` heading `RIGHT` with hues `40` / `10`, flags
cleared, `step_cooldown = 0`, `score = 0`, and a fresh apple from
`new_apple` (which starts from `apple = None`). -/
def reset_game (samples : List Cell) : Option Game :=
  new_apple samples
    { next_dirs := []
      snake := { cells := [(0, 0), (1, 0), (2, 0)], dir := .RIGHT, hue := 40, line_hue := 10 }
      game_over := false
      pause := false
      step_cooldown := 0
      score := 0
      apple := none }

/-- The key presses `update_game` polls in one frame, plus the frame's
elapsed time `dt` (`is_key_pressed` is edge-triggered, one reading per
frame). -/
structure FrameInput where
  keySpace : Bool
  keyR : Bool
  keyW : Bool
  keyD : Bool
  keyS : Bool
  keyA : Bool
  dt : ℚ
deriving DecidableEq, Repr

/-- The direction enqueued by the `W`/`D`/`S`/`A` `elif` chain of
`update_game`, if any. -/
def keys_dir (inp : FrameInput) : Option Direction :=
  if inp.keyW then some .UP
  else if inp.keyD then some .RIGHT
  else if inp.keyS then some .DOWN
  else if inp.keyA then some .LEFT
  else none

/-- Effect of the key `elif` chain on the pending-direction queue:
`queue.put` appends at the back. -/
def put_keys (inp : FrameInput) (q : List Direction) : List Direction :=
  match keys_dir inp with
  | some nd => q ++ [nd]
  | none => q

/-- The dequeue-and-filter block of a step: pop one pending direction if
the queue is non-empty and adopt it unless it is the `opposite_dir` of the
current one.  Returns the direction to travel and the remaining queue. -/
def consume_dir (dir : Direction) (q : List Direction) : Direction × List Direction :=
  match q with
  | [] => (dir, [])
  | next_dir :: rest => (if dir ≠ opposite_dir next_dir then next_dir else dir, rest)

/-- The body of the `if game.step_cooldown <= 0.0` block of `update_game`,
entered with `step_cooldown` already reset to `STEP_INTERVAL`: consume one
pending direction, compute the new head, then either grow (current head on
the apple), die (new head on the body) or translate. -/
def step_fire (samples : List Cell) (g : Game) : Option Game :=
  let dq := consume_dir g.snake.dir g.next_dirs
  let g := { g with next_dirs := dq.2, snake := { g.snake with dir := dq.1 } }
  let snake_step := dirVec g.snake.dir
  let new_head := cell_step g.snake.head snake_step
  if some g.snake.head = g.apple then
    let g1 := { g with snake := { g.snake with cells := g.snake.cells ++ [new_head] } }
    match new_apple samples g1 with
    | some g2 => some { g2 with score := g2.score + 1 }
    | none => none
  else if g.snake.is_body new_head then
    some { g with game_over := true }
  else
    some { g with snake := { g.snake with cells := (g.snake.cells ++ [new_head]).tail } }

/-- The part of `update_game` after the pause/reset key handling: return
at once while paused, otherwise advance the cosmetic hues and, unless the
game is over, enqueue the frame's key press, run down the step timer and
fire a step when it reaches zero. -/
def update_running (inp : FrameInput) (samples : List Cell) (g1 : Game) : Option Game :=
  if g1.pause then some g1
  else
    let g2 := { g1 with snake := g1.snake.update_colors inp.dt }
    if g2.game_over then some g2
    else
      let g3 := { g2 with
                  next_dirs := put_keys inp g2.next_dirs
                  step_cooldown := g2.step_cooldown - inp.dt }
      if g3.step_cooldown ≤ 0 then
        step_fire samples { g3 with step_cooldown := STEP_INTERVAL }
      else some g3

/-- `update_game` of boa.py: `SPACE` toggles pause (and the frame goes
on), otherwise `R` resets and returns; then the running-frame logic. -/
def update_game (inp : FrameInput) (samples : List Cell) (g : Game) : Option Game :=
  if inp.keySpace then update_running inp samples { g with pause := !g.pause }
  else if inp.keyR then reset_game samples
  else update_running inp samples g

/-! Concrete states used by the example-level theorems below. -/

/-- A frame with no key pressed and `dt = 1`. -/
def noKeys : FrameInput :=
  { keySpace := false, keyR := false, keyW := false, keyD := false,
    keyS := false, keyA := false, dt := 1 }

/-- The spec's growth example: 3-cell creature at `[(0,0),(1,0),(2,0)]`
moving `RIGHT` with the target at `(3,0)`, one step due. -/
def exGrowthSpec : Game :=
  { next_dirs := []
    snake := { cells := [(0, 0), (1, 0), (2, 0)], dir := .RIGHT, hue := 40, line_hue := 10 }
    game_over := false, pause := false, step_cooldown := 0, score := 0
    apple := some (3, 0) }

/-- A creature whose current head `(3,0)` sits on the target, one step due. -/
def exHeadOnApple : Game :=
  { next_dirs := []
    snake := { cells := [(1, 0), (2, 0), (3, 0)], dir := .RIGHT, hue := 40, line_hue := 10 }
    game_over := false, pause := false, step_cooldown := 0, score := 0
    apple := some (3, 0) }

/-- The state one step after `exHeadOnApple` (computed by the model). -/
def exHeadOnApple' : Game :=
  { next_dirs := []
    snake := { cells := [(1, 0), (2, 0), (3, 0), (4, 0)], dir := .RIGHT, hue := 50, line_hue := 20 }
    game_over := false, pause := false, step_cooldown := STEP_INTERVAL, score := 1
    apple := some (9, 9) }

/-- A creature moving `RIGHT` with a pending `LEFT` intent, one step due. -/
def exReversal : Game :=
  { next_dirs := [.LEFT]
    snake := { cells := [(0, 0), (1, 0), (2, 0)], dir := .RIGHT, hue := 40, line_hue := 10 }
    game_over := false, pause := false, step_cooldown := 0, score := 0
    apple := some (9, 9) }

/-- The state one step after `exReversal` (computed by the model): the
`LEFT` intent was consumed and discarded, the direction is still `RIGHT`. -/
def exReversal' : Game :=
  { next_dirs := []
    snake := { cells := [(1, 0), (2, 0), (3, 0)], dir := .RIGHT, hue := 50, line_hue := 20 }
    game_over := false, pause := false, step_cooldown := STEP_INTERVAL, score := 0
    apple := some (9, 9) }

/-- All `ROWS * COLS` grid cells, row-major. -/
def allCells : List Cell :=
  (List.range (ROWS * COLS)).map (fun i => (((i % COLS : ℕ) : ℤ), ((i / COLS : ℕ) : ℤ)))

/-- A game whose creature occupies the whole grid, apple still at `(0,0)`. -/
def exFullGrid : Game :=
  { next_dirs := []
    snake := { cells := allCells, dir := .RIGHT, hue := 40, line_hue := 10 }
    game_over := false, pause := false, step_cooldown := 0, score := 147
    apple := some (0, 0) }

/-- A small game used to exercise the non-full branch of `new_apple`. -/
def exSmall : Game :=
  { next_dirs := []
    snake := { cells := [(0, 0), (1, 0), (2, 0)], dir := .RIGHT, hue := 40, line_hue := 10 }
    game_over := false, pause := false, step_cooldown := 0, score := 0
    apple := some (3, 3) }

/-- `exSmall` after its apple moved to `(5,5)`. -/
def exSmall' : Game := { exSmall with apple := some (5, 5) }

/-- A paused game with an empty pending-direction queue. -/
def exPaused : Game :=
  { next_dirs := []
    snake := { cells := [(0, 0), (1, 0), (2, 0)], dir := .RIGHT, hue := 40, line_hue := 10 }
    game_over := false, pause := true, step_cooldown := 0, score := 0
    apple := some (9, 9) }

/-- A frame pressing only the `A` (LEFT) key, `dt = 1`. -/
def pressA : FrameInput :=
  { keySpace := false, keyR := false, keyW := false, keyD := false,
    keyS := false, keyA := true, dt := 1 }

/-- A frame pressing only the `D` (RIGHT) key, `dt = 1`. -/
def pressD : FrameInput :=
  { keySpace := false, keyR := false, keyW := false, keyD := true,
    keyS := false, keyA := false, dt := 1 }

/-- Another paused game, with a pending `UP` intent already queued. -/
def exPaused2 : Game :=
  { next_dirs := [.UP]
    snake := { cells := [(4, 4), (5, 4)], dir := .RIGHT, hue := 40, line_hue := 10 }
    game_over := false, pause := true, step_cooldown := 0, score := 0
    apple := some (9, 9) }

/-- The canonical post-reset state with the apple at a given cell. -/
def resetState (c : Cell) : Game :=
  { next_dirs := []
    snake := { cells := [(0, 0), (1, 0), (2, 0)], dir := .RIGHT, hue := 40, line_hue := 10 }
    game_over := false, pause := false, step_cooldown := 0, score := 0
    apple := some c }

/-- A looped creature about to run into its own body: head `(0,0)`, moving
`RIGHT` into `(1,0)`, which is still occupied. -/
def exLoop : Game :=
  { next_dirs := []
    snake := { cells := [(1, 0), (1, 1), (0, 1), (0, 0)], dir := .RIGHT, hue := 40, line_hue := 10 }
    game_over := false, pause := false, step_cooldown := 0, score := 0
    apple := some (5, 5) }

/-- The state one step after `exLoop` (computed by the model). -/
def exLoop' : Game :=
  { next_dirs := []
    snake := { cells := [(1, 0), (1, 1), (0, 1), (0, 0)], dir := .RIGHT, hue := 50, line_hue := 20 }
    game_over := true, pause := false, step_cooldown := STEP_INTERVAL, score := 0
    apple := some (5, 5) }

/-- A square creature whose next head cell is exactly its tail cell:
head `(0,1)` moving `UP` into `(0,0)`, the oldest cell. -/
def exSquare : Game :=
  { next_dirs := []
    snake := { cells := [(0, 0), (1, 0), (1, 1), (0, 1)], dir := .UP, hue := 40, line_hue := 10 }
    game_over := false, pause := false, step_cooldown := 0, score := 0
    apple := some (5, 5) }

/-- The state one step after `exSquare` (computed by the model). -/
def exSquare' : Game :=
  { next_dirs := []
    snake := { cells := [(0, 0), (1, 0), (1, 1), (0, 1)], dir := .UP, hue := 50, line_hue := 20 }
    game_over := true, pause := false, step_cooldown := STEP_INTERVAL, score := 0
    apple := some (5, 5) }

/-- A 4-cell creature with score 1 (so `length = score + 3`), one step due. -/
def exInv : Game :=
  { next_dirs := []
    snake := { cells := [(0, 0), (1, 0), (2, 0), (3, 0)], dir := .RIGHT, hue := 40, line_hue := 10 }
    game_over := false, pause := false, step_cooldown := 0, score := 1
    apple := some (9, 9) }

/-- The state one step after `exInv` (computed by the model). -/
def exInv' : Game :=
  { next_dirs := []
    snake := { cells := [(1, 0), (2, 0), (3, 0), (4, 0)], dir := .RIGHT, hue := 50, line_hue := 20 }
    game_over := false, pause := false, step_cooldown := STEP_INTERVAL, score := 1
    apple := some (9, 9) }

/-!  ### General lemmas about the embedded operations  -/

/-- `is_body` is membership in the cell list. -/
lemma is_body_eq_false_iff (s : Snake) (c : Cell) :
    s.is_body c = false ↔ c ∉ s.cells := by
  unfold Snake.is_body
  rw [← Bool.not_eq_true, List.any_eq_true]
  simp [eq_comm]

/-- A successful `new_apple` changes nothing but the apple. -/
lemma new_apple_preserves {samples : List Cell} {g g' : Game}
    (h : new_apple samples g = some g') :
    g'.snake = g.snake ∧ g'.score = g.score ∧ g'.next_dirs = g.next_dirs ∧
    g'.game_over = g.game_over ∧ g'.pause = g.pause ∧
    g'.step_cooldown = g.step_cooldown := by
  unfold new_apple at h
  split at h
  · injection h with h
    subst h
    exact ⟨rfl, rfl, rfl, rfl, rfl, rfl⟩
  · split at h
    · injection h with h
      subst h
      exact ⟨rfl, rfl, rfl, rfl, rfl, rfl⟩
    · cases h

/-- On a non-full grid, a successful `new_apple` puts the apple on a cell
that is not on the body. -/
lemma new_apple_found {samples : List Cell} {g g' : Game}
    (hlen : g.snake.cells.length ≠ ROWS * COLS)
    (h : new_apple samples g = some g') :
    ∃ c, g'.apple = some c ∧ g.snake.is_body c = false := by
  unfold new_apple at h
  rw [if_neg hlen] at h
  split at h
  case h_1 c hc =>
    injection h with h
    subst h
    refine ⟨c, rfl, ?_⟩
    have := List.find?_some hc
    simpa using this
  case h_2 => cases h

/-- On a running, unpaused frame whose elapsed time runs the step timer
down to zero, `update_game` fires a step: the hues advance, the frame's
key press joins the queue, the timer resets, and `step_fire` runs. -/
lemma update_game_fire (inp : FrameInput) (samples : List Cell) (g : Game)
    (hsp : inp.keySpace = false) (hr : inp.keyR = false)
    (hp : g.pause = false) (hgo : g.game_over = false)
    (hfire : g.step_cooldown - inp.dt ≤ 0) :
    update_game inp samples g =
      step_fire samples
        { g with
          snake := g.snake.update_colors inp.dt
          next_dirs := put_keys inp g.next_dirs
          step_cooldown := STEP_INTERVAL } := by
  unfold update_game update_running
  simp only [hsp, hr, hp, hgo, Bool.false_eq_true, if_false, Snake.update_colors]
  rw [if_pos hfire]

/-- The adoption rule of the source (`dir != opposite_dir(next)`), phrased
the way the spec states it (`next == opposite_dir(dir)`). -/
lemma adopt_eq (d q : Direction) :
    (if d ≠ opposite_dir q then q else d) = if q = opposite_dir d then d else q := by
  cases d <;> cases q <;> rfl

/-- Whatever branch a fired step takes, the resulting travel direction is
the one produced by the dequeue-and-filter rule, and the step succeeds
unless the apple rejection loop diverges. -/
lemma step_fire_dir {samples : List Cell} {g g' : Game}
    (h : step_fire samples g = some g') :
    g'.snake.dir = (consume_dir g.snake.dir g.next_dirs).1 := by
  simp only [step_fire] at h
  split at h
  · split at h
    case h_1 g2 hg2 =>
      injection h with h
      subst h
      have := (new_apple_preserves hg2).1
      simpa using congrArg Snake.dir this
    case h_2 => cases h
  · split at h <;> (injection h with h; subst h; rfl)

/-- Iterating `cell_step` with a fixed delta accumulates the delta under
the modulus, for a cell already reduced modulo the grid. -/
lemma iterate_cell_step (v : Cell) (n : ℕ) (c : Cell)
    (hx : c.1 % (COLS : ℤ) = c.1) (hy : c.2 % (ROWS : ℤ) = c.2) :
    (fun x => cell_step x v)^[n] c =
      ((c.1 + n * v.1) % (COLS : ℤ), (c.2 + n * v.2) % (ROWS : ℤ)) := by
  induction n with
  | zero => simp [hx, hy]
  | succ n ih =>
    rw [Function.iterate_succ_apply', ih]
    simp only [cell_step, Int.emod_add_emod, Prod.mk.injEq]
    constructor <;> (congr 1; push_cast; ring)

/-- C3: for every direction `d`, `opposite_dir (opposite_dir d) = d`, and
`opposite_dir` pairs the four directions as LEFT↔RIGHT and UP↔DOWN (the
180-degree rotation). -/
theorem opposite_dir_involutive_and_pairs :
    (∀ d : Direction, opposite_dir (opposite_dir d) = d) ∧
    opposite_dir .LEFT = .RIGHT ∧ opposite_dir .RIGHT = .LEFT ∧
    opposite_dir .UP = .DOWN ∧ opposite_dir .DOWN = .UP := by
  refine ⟨fun d => ?_, rfl, rfl, rfl, rfl⟩
  cases d <;> rfl

/-- C7: for every in-range cell `c` and direction `d`, `cell_step` lands
inside `[0,COLS) × [0,ROWS)`, equals coordinate-wise addition followed by
the mathematical modulo, and iterating it `COLS` times horizontally (or
`ROWS` times vertically) returns to `c`. -/
theorem cell_step_toroidal (c : Cell) (d : Direction)
    (hx : 0 ≤ c.1 ∧ c.1 < (COLS : ℤ)) (hy : 0 ≤ c.2 ∧ c.2 < (ROWS : ℤ)) :
    (0 ≤ (cell_step c (dirVec d)).1 ∧ (cell_step c (dirVec d)).1 < (COLS : ℤ) ∧
     0 ≤ (cell_step c (dirVec d)).2 ∧ (cell_step c (dirVec d)).2 < (ROWS : ℤ)) ∧
    cell_step c (dirVec d) =
      ((c.1 + (dirVec d).1) % (COLS : ℤ), (c.2 + (dirVec d).2) % (ROWS : ℤ)) ∧
    ((d = .LEFT ∨ d = .RIGHT) → (fun x => cell_step x (dirVec d))^[COLS] c = c) ∧
    ((d = .UP ∨ d = .DOWN) → (fun x => cell_step x (dirVec d))^[ROWS] c = c) := by
  have hx' : c.1 % (COLS : ℤ) = c.1 := Int.emod_eq_of_lt hx.1 hx.2
  have hy' : c.2 % (ROWS : ℤ) = c.2 := Int.emod_eq_of_lt hy.1 hy.2
  refine ⟨?_, rfl, ?_, ?_⟩
  · unfold cell_step
    refine ⟨Int.emod_nonneg _ (by decide), Int.emod_lt_of_pos _ (by decide),
            Int.emod_nonneg _ (by decide), Int.emod_lt_of_pos _ (by decide)⟩
  · rintro (rfl | rfl) <;>
      (rw [iterate_cell_step _ _ _ hx' hy']
       simp only [dirVec, COLS, ROWS] at *
       refine Prod.ext ?_ ?_ <;> simp <;> omega)
  · rintro (rfl | rfl) <;>
      (rw [iterate_cell_step _ _ _ hx' hy']
       simp only [dirVec, COLS, ROWS] at *
       refine Prod.ext ?_ ?_ <;> simp <;> omega)

/-- Witness for C7 at the in-range cell `(3,4)` moving `RIGHT`. -/
theorem cell_step_toroidal_witness :
    (0 ≤ (cell_step ((3 : ℤ), (4 : ℤ)) (dirVec .RIGHT)).1 ∧
     (cell_step ((3 : ℤ), (4 : ℤ)) (dirVec .RIGHT)).1 < (COLS : ℤ) ∧
     0 ≤ (cell_step ((3 : ℤ), (4 : ℤ)) (dirVec .RIGHT)).2 ∧
     (cell_step ((3 : ℤ), (4 : ℤ)) (dirVec .RIGHT)).2 < (ROWS : ℤ)) ∧
    (fun x => cell_step x (dirVec .RIGHT))^[COLS] ((3 : ℤ), (4 : ℤ)) = ((3 : ℤ), (4 : ℤ)) :=
  ⟨(cell_step_toroidal (3, 4) .RIGHT ⟨by decide, by decide⟩ ⟨by decide, by decide⟩).1,
   (cell_step_toroidal (3, 4) .RIGHT ⟨by decide, by decide⟩ ⟨by decide, by decide⟩).2.2.1
     (Or.inr rfl)⟩

/-- C2: if the pending direction `q` dequeued at a step is the 180-degree
opposite of the current travel direction, it is silently discarded and the
travel direction after the step is unchanged; otherwise `q` becomes the
new travel direction.  (`q` is the front of the queue as it stands when
the step fires, i.e. after the frame's key press was enqueued.) -/
theorem dequeued_reversal_discarded (inp : FrameInput) (samples : List Cell)
    (g g' : Game) (q : Direction) (rest : List Direction)
    (hsp : inp.keySpace = false) (hr : inp.keyR = false)
    (hp : g.pause = false) (hgo : g.game_over = false)
    (hfire : g.step_cooldown - inp.dt ≤ 0)
    (hq : put_keys inp g.next_dirs = q :: rest)
    (hup : update_game inp samples g = some g') :
    g'.snake.dir = if q = opposite_dir g.snake.dir then g.snake.dir else q := by
  rw [update_game_fire inp samples g hsp hr hp hgo hfire] at hup
  have hd := step_fire_dir hup
  simp only [Snake.update_colors] at hd
  rw [hq] at hd
  simp only [consume_dir] at hd
  rw [hd]
  exact adopt_eq _ _

/-- Witness for C2: a creature travelling `RIGHT` with a pending `LEFT`
intent keeps travelling `RIGHT` after the step that consumes it. -/
theorem dequeued_reversal_discarded_witness :
    exReversal'.snake.dir =
      if Direction.LEFT = opposite_dir exReversal.snake.dir then exReversal.snake.dir
      else Direction.LEFT :=
  dequeued_reversal_discarded noKeys [(9, 9)] exReversal exReversal' .LEFT []
    rfl rfl rfl rfl (by with_unfolding_all decide) rfl (by with_unfolding_all decide)

/-- C6 (amended): while the session is paused (and the frame presses
neither the pause toggle nor reset), the per-frame update leaves the whole
state unchanged: the timer does not advance, the creature and target are
untouched, the queue is not drained — and a direction key pressed during a
paused frame is dropped, not enqueued. -/
theorem paused_frame_inert (inp : FrameInput) (samples : List Cell) (g : Game)
    (hp : g.pause = true) (hsp : inp.keySpace = false) (hr : inp.keyR = false) :
    update_game inp samples g = some g := by
  unfold update_game update_running
  simp [hsp, hr, hp]

/-- Witness for C6: a paused frame pressing the `D` (RIGHT) key changes
nothing, with a pending `UP` intent left exactly as it was. -/
theorem paused_frame_inert_witness :
    update_game pressD [] exPaused2 = some exPaused2 :=
  paused_frame_inert pressD [] exPaused2 rfl rfl rfl

/-- C6 counterexample: the claim says the input queue still accepts
enqueued direction intents while paused.  In the code the enqueue block
sits after the `if game.pause: return` early exit, so a `LEFT` press
during a paused frame is dropped: the queue is still `[]` afterwards, not
`[LEFT]`. -/
theorem paused_enqueue_dropped_cex :
    (update_game pressA [] exPaused).map Game.next_dirs = some [] ∧
    some ([] : List Direction) ≠ some [Direction.LEFT] := by
  exact ⟨rfl, by decide⟩

/-- In the growth branch, a fired step appends the new head to the grown
snake, hands it to `new_apple`, and bumps the score. -/
lemma step_fire_growth {samples : List Cell} {g g' : Game}
    (h : step_fire samples g = some g')
    (happle : g.apple = some g.snake.head) :
    ∃ g2,
      new_apple samples
        { g with
          next_dirs := (consume_dir g.snake.dir g.next_dirs).2
          snake := { g.snake with
                     dir := (consume_dir g.snake.dir g.next_dirs).1
                     cells := g.snake.cells ++
                       [cell_step g.snake.head
                         (dirVec (consume_dir g.snake.dir g.next_dirs).1)] } } = some g2 ∧
      g' = { g2 with score := g2.score + 1 } := by
  simp only [step_fire] at h
  split at h
  · split at h
    case h_1 g2 hg2 =>
      injection h with h
      exact ⟨g2, hg2, h.symm⟩
    case h_2 => cases h
  · next hc => exact absurd happle.symm hc

/-- C1 counterexample: at the spec's own example — 3-cell creature at
`[(0,0),(1,0),(2,0)]` moving `RIGHT` with the target at `(3,0)`, so that
the computed new head equals the target — one step yields
`[(1,0),(2,0),(3,0)]` with score `0` (an ordinary translation), not the
claimed `[(0,0),(1,0),(2,0),(3,0)]` with score `1`: the code's growth
guard compares the *current* head with the target, not the new head. -/
theorem growth_on_new_head_cex :
    (update_game noKeys [(9, 9)] exGrowthSpec).map (fun g => (g.snake.cells, g.score)) =
      some ([(1, 0), (2, 0), (3, 0)], 0) ∧
    ([((1 : ℤ), (0 : ℤ)), (2, 0), (3, 0)], (0 : ℕ)) ≠
      ([((0 : ℤ), (0 : ℤ)), (1, 0), (2, 0), (3, 0)], (1 : ℕ)) := by
  constructor
  · with_unfolding_all decide
  · decide

/-- C1 (amended): the growth branch fires when the creature's *current*
head sits on the target (one step after the new head reached it).  In that
case the step appends the computed new head without popping the tail
(length grows by exactly one), increments the score by exactly one, and —
when the grown creature does not fill the grid — places a new target off
the grown body. -/
theorem growth_on_head_on_target (inp : FrameInput) (samples : List Cell) (g g' : Game)
    (hsp : inp.keySpace = false) (hr : inp.keyR = false)
    (hp : g.pause = false) (hgo : g.game_over = false)
    (hfire : g.step_cooldown - inp.dt ≤ 0)
    (happle : g.apple = some g.snake.head)
    (hup : update_game inp samples g = some g') :
    g'.snake.cells =
      g.snake.cells ++
        [cell_step g.snake.head
          (dirVec (consume_dir g.snake.dir (put_keys inp g.next_dirs)).1)] ∧
    g'.snake.cells.length = g.snake.cells.length + 1 ∧
    g'.score = g.score + 1 ∧
    (g.snake.cells.length + 1 ≠ ROWS * COLS →
      ∃ c, g'.apple = some c ∧ c ∉ g'.snake.cells) := by
  rw [update_game_fire inp samples g hsp hr hp hgo hfire] at hup
  obtain ⟨g2, hg2, rfl⟩ := step_fire_growth hup happle
  obtain ⟨hsn, hsc, -, -, -, -⟩ := new_apple_preserves hg2
  simp only [Snake.update_colors] at hsn hsc hg2
  have hcells : g2.snake.cells =
      g.snake.cells ++
        [cell_step g.snake.head
          (dirVec (consume_dir g.snake.dir (put_keys inp g.next_dirs)).1)] := by
    rw [hsn]
    simp [Snake.head]
  refine ⟨hcells, ?_, ?_, ?_⟩
  · simp [hcells]
  · simp [hsc]
  · intro hlen
    obtain ⟨c, hc, hbody⟩ := new_apple_found (by simpa using hlen) hg2
    refine ⟨c, hc, ?_⟩
    rw [is_body_eq_false_iff] at hbody
    rw [hcells]
    simpa using hbody

/-- Witness for C1 (amended): a 3-cell creature with its head on the
target grows to 4 cells and scores. -/
theorem growth_on_head_on_target_witness :
    exHeadOnApple'.snake.cells =
      exHeadOnApple.snake.cells ++
        [cell_step exHeadOnApple.snake.head
          (dirVec (consume_dir exHeadOnApple.snake.dir
            (put_keys noKeys exHeadOnApple.next_dirs)).1)] ∧
    exHeadOnApple'.snake.cells.length = exHeadOnApple.snake.cells.length + 1 ∧
    exHeadOnApple'.score = exHeadOnApple.score + 1 ∧
    (∃ c, exHeadOnApple'.apple = some c ∧ c ∉ exHeadOnApple'.snake.cells) :=
  have T := growth_on_head_on_target noKeys [(9, 9)] exHeadOnApple exHeadOnApple'
    rfl rfl rfl rfl (by with_unfolding_all decide) rfl (by with_unfolding_all decide)
  ⟨T.1, T.2.1, T.2.2.1, T.2.2.2 (by decide)⟩

set_option maxRecDepth 40000 in
/-- C4 counterexample: with the creature occupying all `ROWS * COLS` grid
cells, `new_apple` returns early *without* clearing the apple — the target
keeps its previous value `(0,0)` instead of becoming absent as the claim
states. -/
theorem full_grid_target_not_absent_cex :
    new_apple [(0, 0), (3, 3)] exFullGrid = some exFullGrid ∧
    exFullGrid.apple = some (0, 0) ∧ exFullGrid.apple ≠ none := by
  refine ⟨by decide, rfl, by decide⟩

/-- C4 (amended): when target placement runs with the creature occupying
all `ROWS * COLS` grid cells it produces no cell and leaves the session's
target exactly as it was (the target does not become absent); with any
occupancy below `ROWS * COLS`, a terminating call places the target on a
cell not contained in the creature's body. -/
theorem new_apple_full_grid (samples : List Cell) (g g' : Game)
    (h : new_apple samples g = some g') :
    (g.snake.cells.length = ROWS * COLS → g' = g) ∧
    (g.snake.cells.length ≠ ROWS * COLS →
      ∃ c, g'.apple = some c ∧ g.snake.is_body c = false) := by
  constructor
  · intro hlen
    unfold new_apple at h
    rw [if_pos hlen] at h
    injection h with h
    exact h.symm
  · intro hlen
    exact new_apple_found hlen h

set_option maxRecDepth 40000 in
/-- Witness for C4 (amended), on both sides: the full grid keeps its state
unchanged, and a 3-cell creature gets an apple off its body. -/
theorem new_apple_full_grid_witness :
    exFullGrid = exFullGrid ∧
    (∃ c, exSmall'.apple = some c ∧ exSmall.snake.is_body c = false) :=
  ⟨(new_apple_full_grid [(0, 0), (3, 3)] exFullGrid exFullGrid (by decide)).1 (by decide),
   (new_apple_full_grid [(5, 5)] exSmall exSmall' (by decide)).2 (by decide)⟩

/-- A successful reset produces exactly the canonical initial state, for
some apple cell off the initial body. -/
lemma reset_game_some {s : List Cell} {g : Game} (h : reset_game s = some g) :
    ∃ c, g = resetState c ∧ (resetState c).snake.is_body c = false := by
  unfold reset_game new_apple at h
  rw [if_neg (by decide)] at h
  split at h
  case h_1 c hc =>
    injection h with h
    refine ⟨c, h.symm, ?_⟩
    have := List.find?_some hc
    simpa [resetState] using this
  case h_2 => cases h

/-- C5 counterexample: reset sets the step countdown timer to `0`, not to
the step interval `0.125` — the first running frame after a reset fires a
step immediately. -/
theorem reset_timer_not_interval_cex :
    (reset_game [(5, 5)]).map Game.step_cooldown = some 0 ∧ (0 : ℚ) ≠ STEP_INTERVAL := by
  refine ⟨rfl, by with_unfolding_all decide⟩

/-- C5 (amended): `reset_game` produces the canonical initial state — a
fresh 3-cell creature at `[(0,0),(1,0),(2,0)]` heading `RIGHT`, a fresh
random target off the body, score `0`, both flags cleared, and the step
countdown timer equal to `0` (not the step interval); two consecutive
resets agree on every field except the randomly placed target. -/
theorem reset_canonical (s1 s2 : List Cell) (g1 g2 : Game)
    (h1 : reset_game s1 = some g1) (h2 : reset_game s2 = some g2) :
    g1.snake.cells = [(0, 0), (1, 0), (2, 0)] ∧ g1.snake.dir = .RIGHT ∧
    g1.score = 0 ∧ g1.step_cooldown = 0 ∧ g1.pause = false ∧ g1.game_over = false ∧
    g1.next_dirs = [] ∧ (∃ c, g1.apple = some c ∧ g1.snake.is_body c = false) ∧
    g1.snake = g2.snake ∧ g1.score = g2.score ∧ g1.step_cooldown = g2.step_cooldown ∧
    g1.pause = g2.pause ∧ g1.game_over = g2.game_over ∧ g1.next_dirs = g2.next_dirs := by
  obtain ⟨c1, rfl, hb1⟩ := reset_game_some h1
  obtain ⟨c2, rfl, hb2⟩ := reset_game_some h2
  exact ⟨rfl, rfl, rfl, rfl, rfl, rfl, rfl, ⟨c1, rfl, hb1⟩,
         rfl, rfl, rfl, rfl, rfl, rfl⟩

/-- Witness for C5 (amended) at two concrete sample streams. -/
theorem reset_canonical_witness :
    (resetState (5, 5)).snake.cells = [(0, 0), (1, 0), (2, 0)] ∧
    (resetState (5, 5)).snake.dir = .RIGHT ∧
    (resetState (5, 5)).score = 0 ∧ (resetState (5, 5)).step_cooldown = 0 ∧
    (resetState (5, 5)).pause = false ∧ (resetState (5, 5)).game_over = false ∧
    (resetState (5, 5)).next_dirs = [] ∧
    (∃ c, (resetState (5, 5)).apple = some c ∧
      (resetState (5, 5)).snake.is_body c = false) ∧
    (resetState (5, 5)).snake = (resetState (7, 3)).snake ∧
    (resetState (5, 5)).score = (resetState (7, 3)).score ∧
    (resetState (5, 5)).step_cooldown = (resetState (7, 3)).step_cooldown ∧
    (resetState (5, 5)).pause = (resetState (7, 3)).pause ∧
    (resetState (5, 5)).game_over = (resetState (7, 3)).game_over ∧
    (resetState (5, 5)).next_dirs = (resetState (7, 3)).next_dirs :=
  reset_canonical [(5, 5)] [(7, 3)] (resetState (5, 5)) (resetState (7, 3))
    (by decide) (by decide)

/-- A fired step whose growth guard fails and whose computed new head lies
on the body only flips `game_over` (and commits the dequeued direction):
queue, cells, score, apple and timer are untouched. -/
lemma step_fire_collision {samples : List Cell} {g g' : Game}
    (h : step_fire samples g = some g')
    (hnogrow : g.apple ≠ some g.snake.head)
    (hbody : g.snake.is_body
      (cell_step g.snake.head (dirVec (consume_dir g.snake.dir g.next_dirs).1)) = true) :
    g' = { g with
           next_dirs := (consume_dir g.snake.dir g.next_dirs).2
           snake := { g.snake with dir := (consume_dir g.snake.dir g.next_dirs).1 }
           game_over := true } := by
  simp only [step_fire] at h
  split at h
  · next hc => exact absurd hc.symm hnogrow
  · split at h
    · injection h with h
      exact h.symm
    · next hb => exact absurd hbody hb

/-- C8: in a running frame that fires a step, when the computed new head
cell is contained in the creature's occupied cells and the growth case
(current head on the target) does not apply, the step sets `game_over` and
leaves the creature's cell sequence exactly equal to its pre-step state. -/
theorem self_collision_freezes_cells (inp : FrameInput) (samples : List Cell)
    (g g' : Game)
    (hsp : inp.keySpace = false) (hr : inp.keyR = false)
    (hp : g.pause = false) (hgo : g.game_over = false)
    (hfire : g.step_cooldown - inp.dt ≤ 0)
    (hnogrow : g.apple ≠ some g.snake.head)
    (hbody : g.snake.is_body
      (cell_step g.snake.head
        (dirVec (consume_dir g.snake.dir (put_keys inp g.next_dirs)).1)) = true)
    (hup : update_game inp samples g = some g') :
    g'.game_over = true ∧ g'.snake.cells = g.snake.cells := by
  rw [update_game_fire inp samples g hsp hr hp hgo hfire] at hup
  have hco := step_fire_collision hup hnogrow hbody
  rw [hco]
  exact ⟨rfl, rfl⟩

/-- Witness for C8: a looped creature running `RIGHT` into its own body
dies with its cells untouched. -/
theorem self_collision_freezes_cells_witness :
    exLoop'.game_over = true ∧ exLoop'.snake.cells = exLoop.snake.cells :=
  self_collision_freezes_cells noKeys [(9, 9)] exLoop exLoop'
    rfl rfl rfl rfl (by with_unfolding_all decide) (by decide) (by decide)
    (by with_unfolding_all decide)

/-- C9: when the computed new head cell equals the creature's current tail
cell (the oldest cell) — the growth branch not preempting — the step is
treated as a self-collision: `game_over` becomes true and the cell
sequence is unmodified, because body membership is tested before the tail
is popped. -/
theorem new_head_on_tail_is_collision (inp : FrameInput) (samples : List Cell)
    (g g' : Game)
    (hsp : inp.keySpace = false) (hr : inp.keyR = false)
    (hp : g.pause = false) (hgo : g.game_over = false)
    (hfire : g.step_cooldown - inp.dt ≤ 0)
    (hnogrow : g.apple ≠ some g.snake.head)
    (hne : g.snake.cells ≠ [])
    (htail : cell_step g.snake.head
        (dirVec (consume_dir g.snake.dir (put_keys inp g.next_dirs)).1) = g.snake.tail)
    (hup : update_game inp samples g = some g') :
    g'.game_over = true ∧ g'.snake.cells = g.snake.cells := by
  have hbody : g.snake.is_body
      (cell_step g.snake.head
        (dirVec (consume_dir g.snake.dir (put_keys inp g.next_dirs)).1)) = true := by
    rw [htail]
    cases h' : g.snake.cells with
    | nil => exact absurd h' hne
    | cons c cs => simp [Snake.is_body, Snake.tail, h']
  rw [update_game_fire inp samples g hsp hr hp hgo hfire] at hup
  have hco := step_fire_collision hup hnogrow hbody
  rw [hco]
  exact ⟨rfl, rfl⟩

/-- Witness for C9: a square creature whose head steps onto its own tail
cell dies even though a plain translation would have vacated that cell. -/
theorem new_head_on_tail_is_collision_witness :
    exSquare'.game_over = true ∧ exSquare'.snake.cells = exSquare.snake.cells :=
  new_head_on_tail_is_collision noKeys [(9, 9)] exSquare exSquare'
    rfl rfl rfl rfl (by with_unfolding_all decide) (by decide) (by decide) (by decide)
    (by with_unfolding_all decide)

/-- A fired step preserves `length = score + 3`. -/
lemma step_fire_inv {samples : List Cell} {g g' : Game}
    (h : step_fire samples g = some g')
    (hinv : g.snake.cells.length = g.score + 3) :
    g'.snake.cells.length = g'.score + 3 := by
  simp only [step_fire] at h
  split at h
  · split at h
    case h_1 g2 hg2 =>
      injection h with h
      subst h
      obtain ⟨hsn, hsc, -, -, -, -⟩ := new_apple_preserves hg2
      simp only [hsn, hsc, List.length_append, List.length_cons, List.length_nil]
      omega
    case h_2 => cases h
  · split at h
    · injection h with h
      subst h
      simpa using hinv
    · injection h with h
      subst h
      simp only [List.length_tail, List.length_append, List.length_cons, List.length_nil]
      omega

/-- A running-frame update preserves `length = score + 3`. -/
lemma update_running_inv {inp : FrameInput} {samples : List Cell} {g g' : Game}
    (h : update_running inp samples g = some g')
    (hinv : g.snake.cells.length = g.score + 3) :
    g'.snake.cells.length = g'.score + 3 := by
  simp only [update_running] at h
  split at h
  · injection h with h
    subst h
    exact hinv
  · split at h
    · injection h with h
      subst h
      simpa [Snake.update_colors] using hinv
    · split at h
      · exact step_fire_inv h (by simpa [Snake.update_colors] using hinv)
      · injection h with h
        subst h
        simpa [Snake.update_colors] using hinv

/-- C10: every per-frame update preserves the invariant
`creature length = score + 3`, and a reset (whether external or from the
`R` key during the frame) re-establishes it with length 3 and score 0. -/
theorem score_tracks_length :
    (∀ (inp : FrameInput) (samples : List Cell) (g g' : Game),
        update_game inp samples g = some g' →
        g.snake.cells.length = g.score + 3 →
        g'.snake.cells.length = g'.score + 3) ∧
    (∀ (samples : List Cell) (g0 : Game),
        reset_game samples = some g0 →
        g0.snake.cells.length = g0.score + 3) := by
  constructor
  · intro inp samples g g' hup hinv
    unfold update_game at hup
    split at hup
    · exact update_running_inv hup (by simpa using hinv)
    · split at hup
      · obtain ⟨c, rfl, -⟩ := reset_game_some hup
        rfl
      · exact update_running_inv hup hinv
  · intro samples g0 h
    obtain ⟨c, rfl, -⟩ := reset_game_some h
    rfl

/-- Witness for C10: one translation step of a 4-cell, score-1 creature,
and one reset. -/
theorem score_tracks_length_witness :
    exInv'.snake.cells.length = exInv'.score + 3 ∧
    (resetState (8, 2)).snake.cells.length = (resetState (8, 2)).score + 3 :=
  ⟨score_tracks_length.1 noKeys [(9, 9)] exInv exInv'
      (by with_unfolding_all decide) (by decide),
   score_tracks_length.2 [(8, 2)] (resetState (8, 2)) (by decide)⟩

end Boa
